import Mathlib

/-!
Shallow embedding of the `oyato/ren` client module (`src/index.ts`).

The module exposes a single facade `$oren` gated on the presence of the
backend capability object `window['oy@o/o-ren']` (here `OrenState.backend`)
and on the stored `disabled` option:

- `$oren(opts)` (here `oren`) merges `opts` into `$oren.options` through the
  backend's `mergeOpts` capability when `$oren.ok()` holds, else echoes `opts`;
- `$oren.wait(p)` (here `wait`) returns the backend's wait token when
  `$oren.ok()` holds and the capability is present, else an inert token;
- `$oren.onion()` (here `onion`) returns the backend's onion address whenever
  the capability object is present (it performs no `ok()` check).

Calling a missing member of a present capability object is a JavaScript
TypeError; all three operations are therefore embedded in `Except String` so
that such a call is an explicit `.error`, while every non-throwing path is
`.ok`. Backend capability members receive the facade object `$oren` itself in
the source; that self-reference carries no information beyond the state
already passed, so the embedding drops it. The resolution side effects of a
backend wait token are opaque; they are embedded as a state transformer over
an arbitrary type `ρ`.
-/

namespace Ren

/-- OnionAddr from `src/index.ts`: the onion address details for the page. -/
structure OnionAddr where
  domain : String
  hostname : String
  deriving Repr, DecidableEq

/-- Options from `src/index.ts`. Every field of the TypeScript interface is
optional, so `Options` and `Partial Options` are the same runtime shape and
are embedded as one structure of `Option` fields. Numbers are embedded as
`Int`; `removeNodes` entries (selector strings or DOM elements) and `exports`
values (arbitrary JSON-stringifiable data) are embedded as opaque strings. -/
structure Options where
  autoRedirect : Option Int
  disabled : Option Bool
  embedRuntimeStyles : Option Bool
  embedStylesheets : Option Int
  exports : Option (List (String × String))
  httpEquiv : Option Bool
  keepInjectedScripts : Option Bool
  localStorage : Option Bool
  preconnect : Option Bool
  removeNodes : Option (List String)
  sessionStorage : Option Bool
  status : Option Int
  deriving Repr, DecidableEq

/-- Options.empty is the initial `$oren.options = {}` object: no field set. -/
def Options.empty : Options :=
  ⟨none, none, none, none, none, none, none, none, none, none, none, none⟩

/-- WaitParams is the parameter object `{timeoutMs}` taken by `$oren.wait`. -/
structure WaitParams where
  timeoutMs : Int
  deriving Repr, DecidableEq

/-- WaitPromise from `src/index.ts`. `props` is the object
`⦃'data-o-ren-wait': data⦄` embedded as `some data`, or the empty object
embedded as `none`. `resolve` is a callback whose backend-side effect is
opaque; it is embedded as a transformer of an arbitrary effect state `ρ`
that may throw. -/
structure WaitPromise (ρ : Type) where
  data : String
  props : Option String
  resolve : ρ → Except String ρ

/-- inertWait is the offline token `⦃data:'', props:⦃⦄, resolve:()=>⦃⦄⦄`
returned by `$oren.wait` when `$oren.ok()` is false. -/
def inertWait {ρ : Type} : WaitPromise ρ :=
  ⟨("" : String), none, fun r => .ok r⟩

/-- Backend is the capability object `window['oy@o/o-ren']`. Its declared
TypeScript interface makes all three members mandatory, but at runtime a
member may be absent, hence each member is wrapped in `Option`; invoking an
absent member is embedded as a thrown TypeError by the operations below.
`onion` is embedded by its result since the facade passes it no data. -/
structure Backend (ρ : Type) where
  mergeOpts : Option (Options → Options → Options)
  wait : Option (WaitParams → WaitPromise ρ)
  onion : Option (Option OnionAddr)

/-- OrenState is the module-level mutable state: `backend` is `$oren.$`
(the capability reference) and `options` is `$oren.options`. -/
structure OrenState (ρ : Type) where
  backend : Option (Backend ρ)
  options : Options

/-- online embeds `$oren.online(): return !!$oren.$`. -/
def online {ρ : Type} (s : OrenState ρ) : Bool :=
  s.backend.isSome

/-- ok embeds `$oren.ok(): return $oren.online() && !$oren.options.disabled`;
an unset `disabled` is falsy in JavaScript, hence `getD false`. -/
def ok {ρ : Type} (s : OrenState ρ) : Bool :=
  online s && !(s.options.disabled.getD false)

/-- oren embeds the `$oren(opts)` function: if `!$oren.ok() || !$oren.$`,
return `opts` as-is; otherwise replace `$oren.options` with
`$oren.$.mergeOpts($oren, ⦃prev: $oren.options, next: opts⦄)` and return the
new options. Calling a missing `mergeOpts` member throws. -/
def oren {ρ : Type} (s : OrenState ρ) (opts : Options) :
    Except String (OrenState ρ × Options) :=
  if !(ok s) then
    .ok (s, opts)
  else
    match s.backend with
    | none => .ok (s, opts)
    | some b =>
      match b.mergeOpts with
      | none => .error ("TypeError: $oren.$.mergeOpts is not a function")
      | some m =>
        let o := m s.options opts
        .ok ({ s with options := o }, o)

/-- wait embeds `$oren.wait(p)`: `$oren.ok() && $oren.$ ? $oren.$.wait($oren, p)
: ⦃data:'', props:⦃⦄, resolve:()=>⦃⦄⦄`. Calling a missing `wait` member
throws. -/
def wait {ρ : Type} (s : OrenState ρ) (p : WaitParams) :
    Except String (WaitPromise ρ) :=
  if ok s then
    match s.backend with
    | none => .ok inertWait
    | some b =>
      match b.wait with
      | none => .error ("TypeError: $oren.$.wait is not a function")
      | some w => .ok (w p)
  else
    .ok inertWait

/-- waitDefault embeds a call `$oren.wait()` with no argument: the source
declares the default parameter `p = ⦃timeoutMs: 5000⦄`. -/
def waitDefault {ρ : Type} (s : OrenState ρ) : Except String (WaitPromise ρ) :=
  wait s { timeoutMs := 5000 }

/-- onion embeds `$oren.onion(): return $oren.$ && $oren.$.onion($oren)`.
Note the source checks only capability presence here, not `$oren.ok()`.
Calling a missing `onion` member throws. -/
def onion {ρ : Type} (s : OrenState ρ) : Except String (Option OnionAddr) :=
  match s.backend with
  | none => .ok none
  | some b =>
    match b.onion with
    | none => .error ("TypeError: $oren.$.onion is not a function")
    | some r => .ok r

/-- initState embeds the module-load effects `$oren.options = ⦃⦄` and
`$oren.$ = window['oy@o/o-ren']` for a given capability lookup result. -/
def initState {ρ : Type} (c : Option (Backend ρ)) : OrenState ρ :=
  ⟨c, Options.empty⟩

/-- apiVersion embeds the constant `$oren.$api = '1.1'`. -/
def apiVersion : String :=
  ("1.1" : String)

/-- throws reports whether an embedded call ended in a thrown exception. -/
def throws {α : Type} (x : Except String α) : Bool :=
  match x with
  | .error _ => true
  | .ok _ => false

/-- iterResolve calls a resolve callback `n` times in sequence, stopping at
the first thrown exception. -/
def iterResolve {ρ : Type} (f : ρ → Except String ρ) : Nat → ρ → Except String ρ
  | 0, r => .ok r
  | n + 1, r =>
    match f r with
    | .ok r2 => iterResolve f n r2
    | .error e => .error e

/-- mergeScalar is the per-field policy for scalar-replace and flag kinds:
a field present in the partial fully overwrites the previous value, a field
absent from the partial is carried over from the previous configuration. -/
def mergeScalar {α : Type} (p n : Option α) : Option α :=
  match n with
  | some v => some v
  | none => p

/-- mergeList is the per-field policy for list-append kind: the previous list
(empty when unset) concatenated with the partial's list, order preserved, no
de-duplication; absent in the partial carries the previous value over. -/
def mergeList {α : Type} (p n : Option (List α)) : Option (List α) :=
  match n with
  | some l => some (p.getD [] ++ l)
  | none => p

/-- assocMerge is the shallow merge of two string-keyed maps embedded as
association lists: the partial's keys overwrite the previous map's on
conflict and keys unique to the previous map survive. Entry order is not part
of the contract; the map is characterised by key lookup. -/
def assocMerge (p n : List (String × String)) : List (String × String) :=
  n ++ p.filter (fun kv => (List.lookup kv.1 n).isNone)

/-- mergeMap is the per-field policy for map-merge kind: shallow merge with
the partial's keys overwriting; absent in the partial carries the previous
value over. -/
def mergeMap (p n : Option (List (String × String))) :
    Option (List (String × String)) :=
  match n with
  | some m => some (assocMerge (p.getD []) m)
  | none => p

/-- Modelled from the spec: the backend capability `mergeOpts` is not part of
this repository's sources — `src/index.ts` only declares its type and calls
it. Per §4.2 of the spec and the `$oren` doc comment, for each field present
in the partial: scalar and flag fields are fully overwritten, list fields are
appended to the previous list, map fields are shallow-merged with the
partial's keys overwriting; fields absent from the partial are carried over
unchanged. -/
def specMergeOpts (prev next : Options) : Options :=
  { autoRedirect := mergeScalar prev.autoRedirect next.autoRedirect
    disabled := mergeScalar prev.disabled next.disabled
    embedRuntimeStyles := mergeScalar prev.embedRuntimeStyles next.embedRuntimeStyles
    embedStylesheets := mergeScalar prev.embedStylesheets next.embedStylesheets
    exports := mergeMap prev.exports next.exports
    httpEquiv := mergeScalar prev.httpEquiv next.httpEquiv
    keepInjectedScripts := mergeScalar prev.keepInjectedScripts next.keepInjectedScripts
    localStorage := mergeScalar prev.localStorage next.localStorage
    preconnect := mergeScalar prev.preconnect next.preconnect
    removeNodes := mergeList prev.removeNodes next.removeNodes
    sessionStorage := mergeScalar prev.sessionStorage next.sessionStorage
    status := mergeScalar prev.status next.status }

/-- escChar maps one character of the JSON-encoded output to its escaped
form: `&`, `<`, `>` become the six-character sequences `\\u0026`, `\\u003c`,
`\\u003e`; every other character is left unchanged. -/
def escChar (c : Char) : List Char :=
  if c = '&' then ("\\u0026" : String).data
  else if c = '<' then ("\\u003c" : String).data
  else if c = '>' then ("\\u003e" : String).data
  else [c]

/-- Modelled from the spec: the Escaper is not part of this repository's
sources — `src/index.ts` only documents it on `Options.exports`. Per §4.1 of
the spec, the JSON-encoded output has every occurrence of `&`, `<`, `>`
replaced by `\\u0026`, `\\u003c`, `\\u003e` and no other character altered;
`escape` applies that substitution to an arbitrary JSON-encoded string. -/
def escape (s : String) : String :=
  ⟨s.data.flatMap escChar⟩

/-- exAddr is a concrete onion address used to evaluate the embedding. -/
def exAddr : OnionAddr :=
  ⟨("t0r.onion" : String), ("api.t0r.onion" : String)⟩

/-- exWaitFn is a concrete backend wait capability used to evaluate the
embedding. -/
def exWaitFn : WaitParams → WaitPromise Unit :=
  fun _ => ⟨("w1" : String), some ("w1" : String), fun r => .ok r⟩

/-- exBackend is a concrete capability object with all three members
present, whose merge member is the spec-modelled merge. -/
def exBackend : Backend Unit :=
  { mergeOpts := some specMergeOpts
    wait := some exWaitFn
    onion := some (some exAddr) }

/-- exAvailSt is a concrete state with the capability present and default
options: `ok` holds. -/
def exAvailSt : OrenState Unit :=
  ⟨some exBackend, Options.empty⟩

/-- exDisabledSt is a concrete state with the capability present but the
`disabled` option set: `ok` is false while `online` is true. -/
def exDisabledSt : OrenState Unit :=
  ⟨some exBackend, { Options.empty with disabled := some true }⟩

/-- exOffSt is a concrete state with no capability object present. -/
def exOffSt : OrenState Unit :=
  ⟨none, Options.empty⟩

/-- exBrokenSt is a concrete state whose capability object is present but
has none of its three members. -/
def exBrokenSt : OrenState Unit :=
  ⟨some ⟨none, none, none⟩, Options.empty⟩

/-- ex404 is the partial configuration `⦃status: 404⦄`. -/
def ex404 : Options :=
  { Options.empty with status := some 404 }

/-- exDisableOpts is the partial configuration `⦃disabled: true⦄`. -/
def exDisableOpts : Options :=
  { Options.empty with disabled := some true }

/-- oren_offline: when `ok` is false, `$oren(opts)` echoes `opts` and leaves
the state untouched. -/
theorem oren_offline {ρ : Type} (s : OrenState ρ) (opts : Options)
    (h : ok s = false) : oren s opts = .ok (s, opts) := by
  simp [oren, h]

/-- wait_offline: when `ok` is false, `$oren.wait(p)` returns the inert
token. -/
theorem wait_offline {ρ : Type} (s : OrenState ρ) (p : WaitParams)
    (h : ok s = false) : wait s p = .ok inertWait := by
  simp [wait, h]

/-- oren_avail: when `ok` holds and the capability provides a merge member,
`$oren(opts)` stores and returns the merged options. -/
theorem oren_avail {ρ : Type} (s : OrenState ρ) (b : Backend ρ)
    (m : Options → Options → Options) (opts : Options)
    (hb : s.backend = some b) (hm : b.mergeOpts = some m)
    (hok : ok s = true) :
    oren s opts = .ok ({ s with options := m s.options opts }, m s.options opts) := by
  simp [oren, hok, hb, hm]

/-- wait_avail: when `ok` holds and the capability provides a wait member,
`$oren.wait(p)` returns the backend token for `p`. -/
theorem wait_avail {ρ : Type} (s : OrenState ρ) (b : Backend ρ)
    (w : WaitParams → WaitPromise ρ) (p : WaitParams)
    (hb : s.backend = some b) (hw : b.wait = some w)
    (hok : ok s = true) : wait s p = .ok (w p) := by
  simp [wait, hok, hb, hw]

/-- onion_present: when the capability object provides an onion member,
`$oren.onion()` returns the backend's result, with no `ok` check. -/
theorem onion_present {ρ : Type} (s : OrenState ρ) (b : Backend ρ)
    (r : Option OnionAddr) (hb : s.backend = some b) (ho : b.onion = some r) :
    onion s = .ok r := by
  simp [onion, hb, ho]

/-- onion_absent: with no capability object, `$oren.onion()` returns the
absent value. -/
theorem onion_absent {ρ : Type} (s : OrenState ρ) (hb : s.backend = none) :
    onion s = .ok none := by
  simp [onion, hb]

/-- ok_of_backend_none: no capability object means `ok` is false. -/
theorem ok_of_backend_none {ρ : Type} (s : OrenState ρ)
    (hb : s.backend = none) : ok s = false := by
  simp [ok, online, hb]

/-- iterResolve_inert: the inert token's resolve callback can be called any
number of times, never throws, and never changes the effect state. -/
theorem iterResolve_inert {ρ : Type} (n : Nat) (r : ρ) :
    iterResolve (inertWait : WaitPromise ρ).resolve n r = .ok r := by
  induction n generalizing r with
  | zero => rfl
  | succ k ih => simpa [iterResolve, inertWait] using ih r

/-- specMergeOpts_empty: merging the empty partial changes nothing. -/
theorem specMergeOpts_empty (q : Options) :
    specMergeOpts q Options.empty = q := by
  cases q
  rfl

/-- lookup_append: key lookup in a concatenation prefers the left list. -/
theorem lookup_append (l1 l2 : List (String × String)) (k : String) :
    List.lookup k (l1 ++ l2) =
      match List.lookup k l1 with
      | some v => some v
      | none => List.lookup k l2 := by
  induction l1 with
  | nil => simp [List.lookup]
  | cons a t ih =>
    obtain ⟨a1, a2⟩ := a
    cases hka : (k == a1) <;> simp [List.lookup, hka, ih]

/-- lookup_filter_notin: dropping entries whose key occurs in `n` does not
affect lookup of a key absent from `n`. -/
theorem lookup_filter_notin (p n : List (String × String)) (k : String)
    (h : List.lookup k n = none) :
    List.lookup k (p.filter (fun kv => (List.lookup kv.1 n).isNone)) =
      List.lookup k p := by
  induction p with
  | nil => rfl
  | cons a t ih =>
    obtain ⟨a1, a2⟩ := a
    cases hka : (k == a1)
    · cases hmem : (List.lookup a1 n).isNone <;>
        simp [List.filter, List.lookup, hka, hmem, ih]
    · have hek : k = a1 := eq_of_beq hka
      subst hek
      simp [List.filter, List.lookup, h]

/-- assocMerge_lookup: the shallow map merge is characterised by lookup —
the partial's binding wins when present, else the previous binding
survives. -/
theorem assocMerge_lookup (p n : List (String × String)) (k : String) :
    List.lookup k (assocMerge p n) =
      mergeScalar (List.lookup k p) (List.lookup k n) := by
  unfold assocMerge
  rw [lookup_append]
  cases hn : List.lookup k n with
  | some v => simp [mergeScalar, hn]
  | none => simp [mergeScalar, hn, lookup_filter_notin p n k hn]

/-- escChar_safe: no character produced by the per-character escape is a
literal `&`, `<` or `>`. -/
theorem escChar_safe (c d : Char) (h : d ∈ escChar c) :
    d ≠ '&' ∧ d ≠ '<' ∧ d ≠ '>' := by
  unfold escChar at h
  split at h
  · have h2 : d ∈ ['\\', 'u', '0', '0', '2', '6'] := h
    simp only [List.mem_cons, List.not_mem_nil, or_false] at h2
    rcases h2 with rfl | rfl | rfl | rfl | rfl | rfl <;> decide
  · split at h
    · have h2 : d ∈ ['\\', 'u', '0', '0', '3', 'c'] := h
      simp only [List.mem_cons, List.not_mem_nil, or_false] at h2
      rcases h2 with rfl | rfl | rfl | rfl | rfl | rfl <;> decide
    · split at h
      · have h2 : d ∈ ['\\', 'u', '0', '0', '3', 'e'] := h
        simp only [List.mem_cons, List.not_mem_nil, or_false] at h2
        rcases h2 with rfl | rfl | rfl | rfl | rfl | rfl <;> decide
      · rename_i h1 h2 h3
        have hd : d = c := by simpa using h
        subst hd
        exact ⟨h1, h2, h3⟩

/-- escape_no_specials: the escaped output contains no literal `&`, `<` or
`>`. -/
theorem escape_no_specials (s : String) (d : Char) (h : d ∈ (escape s).data) :
    d ≠ '&' ∧ d ≠ '<' ∧ d ≠ '>' := by
  have h2 : d ∈ s.data.flatMap escChar := h
  rw [List.mem_flatMap] at h2
  obtain ⟨c, _, hc⟩ := h2
  exact escChar_safe c d hc

/-- escape_append: the escape substitution distributes over concatenation. -/
theorem escape_append (a b : String) :
    escape (a ++ b) = escape a ++ escape b := by
  obtain ⟨la⟩ := a
  obtain ⟨lb⟩ := b
  show String.mk ((la ++ lb).flatMap escChar) =
    String.mk (la.flatMap escChar ++ lb.flatMap escChar)
  rw [List.flatMap_append]

/-- C1 counterexample: with the capability object present and the stored
disabled flag set, availability is false, yet `$oren.onion()` returns the
backend's address rather than the absent value — the source gates `onion`
only on capability presence, never on `ok()`. -/
theorem c1_counterexample :
    ok exDisabledSt = false ∧
    onion exDisabledSt = .ok (some exAddr) ∧
    some exAddr ≠ (none : Option OnionAddr) := by
  exact ⟨rfl, rfl, by decide⟩

/-- C1 (amended): configure and wait evaluate availability as capability
present AND NOT disabled and take their degraded branches (echoed input,
inert token) whenever it is false; environmentAddress takes its degraded
branch (absent value) only when the capability object is absent — when the
capability is present with its onion member, it delegates to the backend
even while the disabled flag is set. -/
theorem c1_gating {ρ : Type} (s : OrenState ρ) (opts : Options)
    (p : WaitParams) (b : Backend ρ) (r : Option OnionAddr) :
    (ok s = false → oren s opts = .ok (s, opts) ∧ wait s p = .ok inertWait) ∧
    (s.backend = none → onion s = .ok none) ∧
    (s.backend = some b → b.onion = some r → onion s = .ok r) :=
  ⟨fun h => ⟨oren_offline s opts h, wait_offline s p h⟩,
   fun h => onion_absent s h,
   fun hb ho => onion_present s b r hb ho⟩

/-- Witness for c1_gating: degraded configure and wait at a disabled state,
absent onion address with no capability, backend onion address at a
disabled-but-present state. -/
theorem c1_gating_witness :
    (oren exDisabledSt ex404 = .ok (exDisabledSt, ex404) ∧
      wait exDisabledSt { timeoutMs := 1 } = .ok inertWait) ∧
    onion exOffSt = .ok none ∧
    onion exDisabledSt = .ok (some exAddr) :=
  ⟨(c1_gating exDisabledSt ex404 { timeoutMs := 1 } exBackend (some exAddr)).1 rfl,
   (c1_gating exOffSt ex404 { timeoutMs := 1 } exBackend (some exAddr)).2.1 rfl,
   (c1_gating exDisabledSt ex404 { timeoutMs := 1 } exBackend (some exAddr)).2.2 rfl rfl⟩

/-- C2 counterexample: a present capability object that is missing its
members does not degrade any operation to offline behavior — all three
facade operations throw a TypeError instead. -/
theorem c2_counterexample :
    throws (oren exBrokenSt Options.empty) = true ∧
    throws (wait exBrokenSt { timeoutMs := 1 }) = true ∧
    throws (onion exBrokenSt) = true :=
  ⟨rfl, rfl, rfl⟩

/-- C2 (amended): when the capability object is absent, every facade
operation returns its offline-behavior result (echoed input, inert token,
absent value) and never throws; a present capability object is required to
carry its members — invoking a missing member throws instead of degrading. -/
theorem c2_absent_degrades {ρ : Type} (s : OrenState ρ) (opts : Options)
    (p : WaitParams) (h : s.backend = none) :
    oren s opts = .ok (s, opts) ∧
    wait s p = .ok inertWait ∧
    onion s = .ok none := by
  have hok := ok_of_backend_none s h
  exact ⟨oren_offline s opts hok, wait_offline s p hok, onion_absent s h⟩

/-- Witness for c2_absent_degrades at the capability-free state. -/
theorem c2_absent_degrades_witness :
    oren exOffSt ex404 = .ok (exOffSt, ex404) ∧
    wait exOffSt { timeoutMs := 7 } = .ok inertWait ∧
    onion exOffSt = .ok none :=
  c2_absent_degrades exOffSt ex404 { timeoutMs := 7 } rfl

/-- mergeScalar_some: a scalar or flag field present in the partial fully
overwrites the previous value. -/
theorem mergeScalar_some {α : Type} (p n : Option α) (v : α)
    (h : n = some v) : mergeScalar p n = some v := by
  simp [mergeScalar, h]

/-- mergeScalar_none: a scalar or flag field absent from the partial is
carried over from the previous configuration. -/
theorem mergeScalar_none {α : Type} (p n : Option α) (h : n = none) :
    mergeScalar p n = p := by
  simp [mergeScalar, h]

/-- mergeList_some: a list field present in the partial is appended to the
previous list (empty when unset), order preserved. -/
theorem mergeList_some {α : Type} (p n : Option (List α)) (l : List α)
    (h : n = some l) : mergeList p n = some (p.getD [] ++ l) := by
  simp [mergeList, h]

/-- mergeList_none: a list field absent from the partial is carried over. -/
theorem mergeList_none {α : Type} (p n : Option (List α)) (h : n = none) :
    mergeList p n = p := by
  simp [mergeList, h]

/-- mergeMap_lookup_some: for a map field present in the partial, the merged
map binds each key to the partial's value when the partial has the key and
to the previous map's value otherwise. -/
theorem mergeMap_lookup_some (p n : Option (List (String × String)))
    (m : List (String × String)) (h : n = some m) (k : String) :
    List.lookup k ((mergeMap p n).getD []) =
      mergeScalar (List.lookup k (p.getD [])) (List.lookup k m) := by
  subst h
  simp only [mergeMap, Option.getD_some]
  exact assocMerge_lookup (p.getD []) m k

/-- mergeMap_none: a map field absent from the partial is carried over. -/
theorem mergeMap_none (p n : Option (List (String × String)))
    (h : n = none) : mergeMap p n = p := by
  simp [mergeMap, h]

/-- C3: when the facade is available (capability present with its merge
member and the disabled flag not set), configure replaces the canonical
configuration with the merge of the previous configuration and the partial
and returns that merge; the merge overwrites scalar and flag fields present
in the partial, appends the partial's list fields to the previous lists,
shallow-merges map fields with the partial's keys winning on conflict, and
carries over unchanged every field absent from the partial. -/
theorem c3_configure_merges {ρ : Type} (s : OrenState ρ) (b : Backend ρ)
    (n : Options) (hb : s.backend = some b)
    (hm : b.mergeOpts = some specMergeOpts) (hok : ok s = true) :
    oren s n = .ok ({ s with options := specMergeOpts s.options n },
      specMergeOpts s.options n) ∧
    (∀ P N : Options,
      (∀ v, N.autoRedirect = some v → (specMergeOpts P N).autoRedirect = some v) ∧
      (∀ v, N.disabled = some v → (specMergeOpts P N).disabled = some v) ∧
      (∀ v, N.embedRuntimeStyles = some v → (specMergeOpts P N).embedRuntimeStyles = some v) ∧
      (∀ v, N.embedStylesheets = some v → (specMergeOpts P N).embedStylesheets = some v) ∧
      (∀ v, N.httpEquiv = some v → (specMergeOpts P N).httpEquiv = some v) ∧
      (∀ v, N.keepInjectedScripts = some v → (specMergeOpts P N).keepInjectedScripts = some v) ∧
      (∀ v, N.localStorage = some v → (specMergeOpts P N).localStorage = some v) ∧
      (∀ v, N.preconnect = some v → (specMergeOpts P N).preconnect = some v) ∧
      (∀ v, N.sessionStorage = some v → (specMergeOpts P N).sessionStorage = some v) ∧
      (∀ v, N.status = some v → (specMergeOpts P N).status = some v) ∧
      (∀ l, N.removeNodes = some l →
        (specMergeOpts P N).removeNodes = some (P.removeNodes.getD [] ++ l)) ∧
      (∀ m, N.exports = some m → ∀ k,
        List.lookup k ((specMergeOpts P N).exports.getD []) =
          mergeScalar (List.lookup k (P.exports.getD [])) (List.lookup k m)) ∧
      (N.autoRedirect = none → (specMergeOpts P N).autoRedirect = P.autoRedirect) ∧
      (N.disabled = none → (specMergeOpts P N).disabled = P.disabled) ∧
      (N.embedRuntimeStyles = none → (specMergeOpts P N).embedRuntimeStyles = P.embedRuntimeStyles) ∧
      (N.embedStylesheets = none → (specMergeOpts P N).embedStylesheets = P.embedStylesheets) ∧
      (N.exports = none → (specMergeOpts P N).exports = P.exports) ∧
      (N.httpEquiv = none → (specMergeOpts P N).httpEquiv = P.httpEquiv) ∧
      (N.keepInjectedScripts = none → (specMergeOpts P N).keepInjectedScripts = P.keepInjectedScripts) ∧
      (N.localStorage = none → (specMergeOpts P N).localStorage = P.localStorage) ∧
      (N.preconnect = none → (specMergeOpts P N).preconnect = P.preconnect) ∧
      (N.removeNodes = none → (specMergeOpts P N).removeNodes = P.removeNodes) ∧
      (N.sessionStorage = none → (specMergeOpts P N).sessionStorage = P.sessionStorage) ∧
      (N.status = none → (specMergeOpts P N).status = P.status)) := by
  refine ⟨oren_avail s b specMergeOpts n hb hm hok, fun P N => ?_⟩
  refine ⟨fun v hv => mergeScalar_some _ _ v hv,
    fun v hv => mergeScalar_some _ _ v hv,
    fun v hv => mergeScalar_some _ _ v hv,
    fun v hv => mergeScalar_some _ _ v hv,
    fun v hv => mergeScalar_some _ _ v hv,
    fun v hv => mergeScalar_some _ _ v hv,
    fun v hv => mergeScalar_some _ _ v hv,
    fun v hv => mergeScalar_some _ _ v hv,
    fun v hv => mergeScalar_some _ _ v hv,
    fun v hv => mergeScalar_some _ _ v hv,
    fun l hl => mergeList_some _ _ l hl,
    fun m hme k => mergeMap_lookup_some _ _ m hme k,
    fun h => mergeScalar_none _ _ h,
    fun h => mergeScalar_none _ _ h,
    fun h => mergeScalar_none _ _ h,
    fun h => mergeScalar_none _ _ h,
    fun h => mergeMap_none _ _ h,
    fun h => mergeScalar_none _ _ h,
    fun h => mergeScalar_none _ _ h,
    fun h => mergeScalar_none _ _ h,
    fun h => mergeScalar_none _ _ h,
    fun h => mergeList_none _ _ h,
    fun h => mergeScalar_none _ _ h,
    fun h => mergeScalar_none _ _ h⟩

/-- Witness for c3_configure_merges: an available state absorbing the
partial `⦃status: 404⦄`. -/
theorem c3_configure_merges_witness :
    oren exAvailSt ex404 =
      .ok ({ exAvailSt with options := specMergeOpts exAvailSt.options ex404 },
        specMergeOpts exAvailSt.options ex404) :=
  (c3_configure_merges exAvailSt exBackend ex404 rfl rfl rfl).1

/-- C4: on the JSON-encoded output, the escaping produces a string with no
literal `&`, `<` or `>`, distributes over concatenation, rewrites each of
the three characters to its six-character numeric escape sequence, and
leaves every other character unchanged. -/
theorem c4_escape_policy (s a b : String) (c : Char)
    (hc : c ≠ '&' ∧ c ≠ '<' ∧ c ≠ '>') :
    (∀ d ∈ (escape s).data, d ≠ '&' ∧ d ≠ '<' ∧ d ≠ '>') ∧
    escape (a ++ b) = escape a ++ escape b ∧
    escape (String.mk ['&']) = ("\\u0026" : String) ∧
    escape (String.mk ['<']) = ("\\u003c" : String) ∧
    escape (String.mk ['>']) = ("\\u003e" : String) ∧
    escape (String.mk [c]) = String.mk [c] := by
  refine ⟨fun d hd => escape_no_specials s d hd, escape_append a b,
    rfl, rfl, rfl, ?_⟩
  show String.mk ([c].flatMap escChar) = String.mk [c]
  simp [escChar, hc.1, hc.2.1, hc.2.2]

/-- Witness for c4_escape_policy: the spec's concrete example, plus an
ordinary character passing through unchanged via the theorem. -/
theorem c4_escape_policy_witness :
    escape ("<b>&c" : String) = ("\\u003cb\\u003e\\u0026c" : String) ∧
    escape (String.mk ['x']) = String.mk ['x'] :=
  ⟨rfl, (c4_escape_policy ("" : String) ("" : String) ("" : String) 'x'
    (by decide)).2.2.2.2.2⟩

/-- C5: when the facade is unavailable (no capability object, or the stored
disabled flag set, i.e. `ok` false), configure returns its argument
unchanged and leaves the stored canonical configuration exactly as it was. -/
theorem c5_offline_configure {ρ : Type} (s : OrenState ρ) (opts : Options)
    (h : ok s = false) : oren s opts = .ok (s, opts) :=
  oren_offline s opts h

/-- Witness for c5_offline_configure: `configure(⦃status:404⦄)` with no
capability object echoes its input and keeps the state. -/
theorem c5_offline_configure_witness :
    oren exOffSt ex404 = .ok (exOffSt, ex404) :=
  c5_offline_configure exOffSt ex404 rfl

/-- C6: whenever the facade is unavailable, wait returns the token whose
marker is the empty string and whose props is the empty object, and whose
resolve callback can be called any number of times without throwing and
without changing any state. -/
theorem c6_inert_token {ρ : Type} (s : OrenState ρ) (p : WaitParams)
    (h : ok s = false) :
    wait s p = .ok inertWait ∧
    (inertWait : WaitPromise ρ).data = ("" : String) ∧
    (inertWait : WaitPromise ρ).props = none ∧
    (∀ (n : Nat) (r : ρ), iterResolve (inertWait : WaitPromise ρ).resolve n r = .ok r) :=
  ⟨wait_offline s p h, rfl, rfl, fun n r => iterResolve_inert n r⟩

/-- Witness for c6_inert_token: the inert token at the capability-free
state, with its resolve callback run three times. -/
theorem c6_inert_token_witness :
    wait exOffSt { timeoutMs := 9 } = .ok inertWait ∧
    iterResolve (inertWait : WaitPromise Unit).resolve 3 () = .ok () :=
  ⟨(c6_inert_token exOffSt { timeoutMs := 9 } rfl).1,
   (c6_inert_token exOffSt { timeoutMs := 9 } rfl).2.2.2 3 ()⟩

/-- C7: if the capability is present and `configure(⦃disabled:true⦄)` runs
while available, the stored configuration afterwards has the disabled flag
set, availability is false, and every subsequent configure call returns its
own argument unchanged and leaves the stored configuration — including the
disabled flag — intact. -/
theorem c7_disable_sticks {ρ : Type} (s : OrenState ρ) (b : Backend ρ)
    (s1 : OrenState ρ) (r1 : Options) (hb : s.backend = some b)
    (hm : b.mergeOpts = some specMergeOpts) (hok : ok s = true)
    (h1 : oren s exDisableOpts = .ok (s1, r1)) :
    s1.options.disabled = some true ∧ ok s1 = false ∧
    ∀ nopts, oren s1 nopts = .ok (s1, nopts) := by
  have he := oren_avail s b specMergeOpts exDisableOpts hb hm hok
  rw [he] at h1
  simp only [Except.ok.injEq, Prod.mk.injEq] at h1
  obtain ⟨hs1, hr1⟩ := h1
  subst hs1
  have hoff : ok ({ s with options := specMergeOpts s.options exDisableOpts }) = false := by
    simp [ok, online, hb, specMergeOpts, mergeScalar, exDisableOpts]
  exact ⟨rfl, hoff, fun nopts => oren_offline _ nopts hoff⟩

/-- Witness for c7_disable_sticks: disabling while available, then a
`⦃status:404⦄` call that is echoed with the disabled flag intact. -/
theorem c7_disable_sticks_witness :
    (exDisabledSt : OrenState Unit).options.disabled = some true ∧
    ok exDisabledSt = false ∧
    oren exDisabledSt ex404 = .ok (exDisabledSt, ex404) :=
  ⟨(c7_disable_sticks exAvailSt exBackend exDisabledSt exDisableOpts rfl rfl rfl rfl).1,
   (c7_disable_sticks exAvailSt exBackend exDisabledSt exDisableOpts rfl rfl rfl rfl).2.1,
   (c7_disable_sticks exAvailSt exBackend exDisabledSt exDisableOpts rfl rfl rfl rfl).2.2 ex404⟩

/-- C8: merging the empty partial into an already-merged configuration
yields the same configuration, and an available configure call with the
empty partial returns the canonical configuration unchanged. -/
theorem c8_empty_partial {ρ : Type} (P N : Options) (s : OrenState ρ)
    (b : Backend ρ) (hb : s.backend = some b)
    (hm : b.mergeOpts = some specMergeOpts) (hok : ok s = true) :
    specMergeOpts (specMergeOpts P N) Options.empty = specMergeOpts P N ∧
    oren s Options.empty = .ok (s, s.options) := by
  refine ⟨specMergeOpts_empty (specMergeOpts P N), ?_⟩
  have he := oren_avail s b specMergeOpts Options.empty hb hm hok
  rw [specMergeOpts_empty s.options] at he
  exact he

/-- Witness for c8_empty_partial at concrete configurations and an
available state. -/
theorem c8_empty_partial_witness :
    specMergeOpts (specMergeOpts ex404 exDisableOpts) Options.empty =
      specMergeOpts ex404 exDisableOpts ∧
    oren exAvailSt Options.empty = .ok (exAvailSt, exAvailSt.options) :=
  c8_empty_partial ex404 exDisableOpts exAvailSt exBackend rfl rfl rfl

/-- C9: a no-argument wait call while the facade is available forwards the
parameter object `⦃timeoutMs: 5000⦄` to the backend's wait capability. -/
theorem c9_default_timeout {ρ : Type} (s : OrenState ρ) (b : Backend ρ)
    (w : WaitParams → WaitPromise ρ) (hb : s.backend = some b)
    (hw : b.wait = some w) (hok : ok s = true) :
    waitDefault s = .ok (w { timeoutMs := 5000 }) := by
  unfold waitDefault
  exact wait_avail s b w { timeoutMs := 5000 } hb hw hok

/-- Witness for c9_default_timeout at the available example state. -/
theorem c9_default_timeout_witness :
    waitDefault exAvailSt = .ok (exWaitFn { timeoutMs := 5000 }) :=
  c9_default_timeout exAvailSt exBackend exWaitFn rfl rfl rfl

/-- C10: at module load the canonical configuration is the empty object with
no option set (disabled in particular is unset), so before any successful
configure call `ok` is true exactly when the capability object is present. -/
theorem c10_initial_state {ρ : Type} (c : Option (Backend ρ)) :
    (initState c).options = Options.empty ∧
    Options.empty.disabled = none ∧
    ok (initState c) = (initState c).backend.isSome := by
  refine ⟨rfl, rfl, ?_⟩
  cases c <;> rfl

end Ren
